import Mathlib

/- Shallow embedding of the snmpquery repository (query.go, table.go and the
client file), translated function by function.  Go machine integers are
modelled as Int / Nat; Go slice, string and map indexing operations that can
panic at run time are modelled with Option (none = run-time panic).  External
collaborator values (gosmi model nodes, gosnmp PDUs) are modelled as plain
structures carrying exactly the fields the repository reads. -/

/-- One non-negative component of an object identifier (a sub-identifier). -/
abbrev SubId := Nat

/-- models.Format from the schema collaborator: a bit set of representation
selectors, combined with bitwise or. -/
abbrev Format := Nat

/-- The schema collaborator's all-representations selector (models.FormatAll);
only its identity as a distinguished constant matters to this repository. -/
def FormatAll : Format := 255

/-- The schema collaborator's empty selector set (models.FormatNone). -/
def FormatNone : Format := 0

/-- A raw Go value (interface value) as it flows through the repository:
nil, an integer, a sub-identifier slice, or a string. -/
inductive RawVal where
  | nilVal : RawVal
  | ofInt : Int → RawVal
  | ofSubIds : List SubId → RawVal
  | ofStr : String → RawVal
deriving DecidableEq

/-- models.Value: a formatted value paired with the raw value it came from. -/
structure Value where
  formatted : String
  raw : RawVal
deriving DecidableEq

/-- The zero models.Value (what a fresh Go array slot holds). -/
def zeroValue : Value := { formatted := "", raw := RawVal.nilVal }

/-- models.ValueFormatter: turns a raw value into a formatted Value. -/
abbrev ValueFormatter := RawVal → Value

/-- The semantic base types of the schema collaborator that the repository
dispatches on (types.BaseType). -/
inductive BaseType where
  | octetString
  | bits
  | objectIdentifier
  | integer
  | unsigned
  | other
deriving DecidableEq

/-- A declared value range of a type (models.Range). -/
structure Range where
  minValue : Int
  maxValue : Int
deriving DecidableEq

/-- models.Type: the fields of a schema type the repository reads.  The
formatter resolution itself is the schema collaborator's, so it is carried as
an opaque function field per type instance. -/
structure TypeInfo where
  baseType : BaseType
  ranges : List Range
  getValueFormatter : Format → ValueFormatter

/-- One entry of a table's declared index column list, as handed over by the
schema collaborator.  The implied flag is recorded by the schema model for the
table's final index component. -/
structure IndexNode where
  name : String
  typ : TypeInfo
  implied : Bool

/-- models.ColumnNode: the fields the repository reads. -/
structure ColumnNode where
  name : String
  oidFormatted : String
  oidLen : Nat
  typ : TypeInfo

/-- models.ScalarNode: the fields the repository reads. -/
structure ScalarNode where
  name : String
  oidFormatted : String
  typ : TypeInfo

/-- models.TableNode: the declared index column list (table.Row.Index, also
returned by table.Node.Index()) and the declared schema columns
(table.Node.Columns()). -/
structure TableNode where
  rowIndex : List IndexNode
  columns : List ColumnNode

/-- Column from table.go: a requested table column. -/
structure Column where
  name : String
  node : ColumnNode
  format : Format

/-- Row from table.go: decoded index values plus the per-column value map. -/
structure Row where
  index : List Value
  values : List (String × Value)
deriving DecidableEq

/-- Table from table.go: the table node plus the caller-requested columns. -/
structure Table where
  node : TableNode
  columns : List Column

/-- Go map lookup over an association list model of a Go map. -/
def mapLookup {α : Type} : List (String × α) → String → Option α
  | [], _ => none
  | (k2, v2) :: rest, k => if k2 = k then some v2 else mapLookup rest k

/-- Go map assignment: replace the binding if the key exists, append it
otherwise. -/
def mapInsert {α : Type} : List (String × α) → String → α → List (String × α)
  | [], k, v => [(k, v)]
  | (k2, v2) :: rest, k, v =>
    if k2 = k then (k2, v) :: rest else (k2, v2) :: mapInsert rest k v

/-- Go slice expression xs[:l] with an int bound: out-of-range bounds panic. -/
def goSliceTo (xs : List SubId) (l : Int) : Option (List SubId) :=
  if 0 ≤ l ∧ l ≤ (xs.length : Int) then some (xs.take l.toNat) else none

/-- Go slice expression xs[l:] with an int bound: out-of-range bounds panic. -/
def goSliceFrom (xs : List SubId) (l : Int) : Option (List SubId) :=
  if 0 ≤ l ∧ l ≤ (xs.length : Int) then some (xs.drop l.toNat) else none

/-- Go slice expression xs[k:] with a non-negative bound. -/
def goSliceFromNat (xs : List SubId) (k : Nat) : Option (List SubId) :=
  if k ≤ xs.length then some (xs.drop k) else none

/-- Go string slicing s[k:]: panics when the bound exceeds the length. -/
def goStrDrop (s : String) (k : Nat) : Option String :=
  if k ≤ s.length then some (s.drop k) else none

/-- min from table.go (on Go int). -/
def minInt (a b : Int) : Int := if a < b then a else b

/-- strings.Join(xs, ".") as used throughout table.go. -/
def joinDots (xs : List String) : String := String.intercalate "." xs

/-- Reduction of a raw value to a 64-bit integer, modelling
gosnmp.ToBigInt(v).Int64() from the transport collaborator: integer raw
values are kept (reduced to 64-bit range), non-numeric raw values become 0. -/
def wrap64 (i : Int) : Int := (i + 2 ^ 63) % 2 ^ 64 - 2 ^ 63

/-- See wrap64: gosnmp.ToBigInt(v).Int64() on a raw value. -/
def toBigIntInt64 : RawVal → Int
  | RawVal.ofInt i => wrap64 i
  | _ => 0

/-- The association list carrying the per-index-column value formatters built
by Client.Table (indexValueFormatters). -/
abbrev FmtMap := List (String × ValueFormatter)

/-- The loop body of getIndex (table.go lines 170-192): iterate over the
table's declared index columns with running position j, skipping the first
indexLen columns, consuming sub-identifiers from indexParts per column.
Returns the decoded values in order, or none when the Go code would panic
(out-of-range slice bound, empty slice indexing, or a nil formatter from a
missing map key). -/
def getIndexLoop (nodes : List IndexNode) (j indexLen : Nat) (numIndices : Int)
    (parts : List SubId) (fmts : FmtMap) : Option (List Value) :=
  match nodes with
  | [] => some []
  | node :: rest =>
    if j < indexLen then getIndexLoop rest (j + 1) indexLen numIndices parts fmts
    else
      let step : Option (RawVal × List SubId) :=
        if node.typ.baseType = BaseType.octetString then
          let maxLen : Int :=
            (parts.length : Int) - numIndices + (j : Int) - (indexLen : Int) + 1
          if h : node.typ.ranges.length = 1 then
            let r := node.typ.ranges.get ⟨0, by omega⟩
            let l := minInt r.maxValue maxLen
            match goSliceTo parts l, goSliceFrom parts l with
            | some v, some p2 => some (RawVal.ofSubIds v, p2)
            | _, _ => none
          else
            match goSliceTo parts maxLen, goSliceFrom parts maxLen with
            | some v, some p2 => some (RawVal.ofSubIds v, p2)
            | _, _ => none
        else
          match parts with
          | [] => none
          | p :: ps => some (RawVal.ofInt (Int.ofNat p), ps)
      match step with
      | none => none
      | some (val, parts2) =>
        match mapLookup fmts node.name with
        | none => none
        | some f =>
          match getIndexLoop rest (j + 1) indexLen numIndices parts2 fmts with
          | none => none
          | some tl => some (f val :: tl)

/-- getIndex from table.go (lines 168-195): allocate the result slice of
length numIndices (panic when negative), run the decode loop over the
declared index columns, with Go array-write semantics for the slice (a write
past the end panics; unwritten trailing slots keep the zero Value). -/
def getIndex (table : TableNode) (indexLen : Nat) (numIndices : Int)
    (indexParts : List SubId) (valueFormatters : FmtMap) : Option (List Value) :=
  if numIndices < 0 then none
  else
    match getIndexLoop table.rowIndex 0 indexLen numIndices indexParts valueFormatters with
    | none => none
    | some vals =>
      if numIndices.toNat < vals.length then none
      else some (vals ++ List.replicate (numIndices.toNat - vals.length) zeroValue)

/-- The leaf kinds the repository dispatches on (gosnmp PDU types): the three
terminal signals plus ordinary value-bearing leaves. -/
inductive PduType where
  | noSuchObject
  | noSuchInstance
  | endOfMibView
  | normal
deriving DecidableEq

/-- gosnmp.SnmpPDU: the fields the repository reads. -/
structure SnmpPDU where
  typ : PduType
  name : String
  oid : List SubId
  value : RawVal
deriving DecidableEq

/-- The association list model of the key-to-Row result map. -/
abbrev ResMap := List (String × Row)

/-- Outcome of one walk-callback invocation: a Go panic, an error returned to
BulkWalk (carrying the result map as mutated so far), or success with the
mutated result map. -/
inductive StepRes where
  | panic : StepRes
  | err : ResMap → String → StepRes
  | ok : ResMap → StepRes
deriving DecidableEq

/-- walkFunc from table.go (lines 135-165): the per-leaf callback closure.
The Go closure mutates *results in place; here the map is threaded
explicitly. -/
def walkFunc (table : TableNode) (column : Column) (index : List String)
    (rootOid : String) (valueFormatters : FmtMap) (numColumns : Nat)
    (results : ResMap) (pdu : SnmpPDU) : StepRes :=
  let indexLen := index.length
  let numIndices : Int := (table.rowIndex.length : Int) - (indexLen : Int)
  let valueFormatter := column.node.typ.getValueFormatter column.format
  match pdu.typ with
  | PduType.noSuchObject =>
    StepRes.err results ("No such object for " ++ column.node.name)
  | PduType.noSuchInstance => StepRes.ok results
  | PduType.endOfMibView => StepRes.ok results
  | PduType.normal =>
    match goStrDrop pdu.name (rootOid.length + 2) with
    | none => StepRes.panic
    | some key =>
      let afterCreate : Option ResMap :=
        match mapLookup results key with
        | some _ => some results
        | none =>
          match goSliceFromNat pdu.oid (column.node.oidLen + indexLen) with
          | none => none
          | some indexParts =>
            match getIndex table indexLen numIndices indexParts valueFormatters with
            | none => none
            | some rowIndex =>
              some (mapInsert results key { index := rowIndex, values := [] })
      match afterCreate with
      | none => StepRes.panic
      | some results2 =>
        let rawv : RawVal :=
          match column.node.typ.baseType with
          | BaseType.octetString => pdu.value
          | BaseType.bits => pdu.value
          | _ => RawVal.ofInt (toBigIntInt64 pdu.value)
        match mapLookup results2 key with
        | none => StepRes.panic
        | some row =>
          StepRes.ok (mapInsert results2 key
            { row with values := mapInsert row.values column.name (valueFormatter rawv) })

/-- The callback-driving part of gosnmp's BulkWalk: feed each yielded leaf to
the callback, stopping at the first callback error (or panic). -/
def runWalk (fn : ResMap → SnmpPDU → StepRes) : ResMap → List SnmpPDU → StepRes
  | m, [] => StepRes.ok m
  | m, pdu :: rest =>
    match fn m pdu with
    | StepRes.ok m2 => runWalk fn m2 rest
    | StepRes.err m2 e => StepRes.err m2 e
    | StepRes.panic => StepRes.panic

/-- The transport collaborator session held by the Client: a subtree
traversal yields leaves for a root (or a transport error), and a batch read
answers a list of identifiers with response variables (or an error). -/
structure SnmpConn where
  walkLeaves : String → Except String (List SnmpPDU)
  getOid : List String → Except String (List SnmpPDU)

/-- A record of one network request issued through the session. -/
inductive Call where
  | getCall : List String → Call
  | walkCall : String → Call
deriving DecidableEq

/-- QueryItem from query.go. -/
structure QueryItem where
  format : ValueFormatter
  name : String
  oid : String

/-- Query from query.go. -/
structure Query where
  items : List QueryItem

/-- The format-selector resolution inside Query.add (query.go lines 20-26):
all representations when no selector is given, otherwise the bitwise or of
every given selector starting from the empty set. -/
def queryResolvedFormat (formats : List Format) : Format :=
  if formats.length > 0 then formats.foldl (fun acc f => acc ||| f) FormatNone
  else FormatAll

/-- Query.add from query.go (lines 19-34). -/
def Query.add (q : Query) (name : String) (t : TypeInfo) (oid : String)
    (formats : List Format) : Query :=
  let format := queryResolvedFormat formats
  { items := q.items ++ [{ format := t.getValueFormatter format, name := name, oid := oid }] }

/-- Query.Column from query.go. -/
def Query.column (q : Query) (node : ColumnNode) (index : String)
    (formats : List Format) : Query :=
  Query.add q node.name node.typ (node.oidFormatted ++ "." ++ index) formats

/-- Query.NamedColumn from query.go. -/
def Query.namedColumn (q : Query) (name : String) (node : ColumnNode)
    (index : String) (formats : List Format) : Query :=
  Query.add q name node.typ (node.oidFormatted ++ "." ++ index) formats

/-- Query.NamedScalar from query.go. -/
def Query.namedScalar (q : Query) (name : String) (node : ScalarNode)
    (formats : List Format) : Query :=
  Query.add q name node.typ node.oidFormatted formats

/-- Query.Scalar from query.go. -/
def Query.scalar (q : Query) (node : ScalarNode) (formats : List Format) : Query :=
  Query.add q node.name node.typ node.oidFormatted formats

/-- The result-population loop of Client.GetAll: pair response variables with
query items by position (a response longer than the item list panics on the
item index), formatting each value and writing it under the item's name. -/
def buildResults (items : List QueryItem) (vars : List SnmpPDU)
    (acc : List (String × Value)) : Option (List (String × Value)) :=
  match items, vars with
  | _, [] => some acc
  | [], _ :: _ => none
  | it :: its, v :: vs => buildResults its vs (mapInsert acc it.name (it.format v.value))

/-- Client.GetAll from the client file (lines 46-68): an empty query batch is
a validation error raised before any network request; otherwise one GetOID
request for all item identifiers, whose response is formatted per item.
Returns (result map or nil, error or nil) plus the issued network calls, or
none for a Go panic. -/
def getAll (c : SnmpConn) (q : Query) :
    Option (Option (List (String × Value)) × Option String × List Call) :=
  if q.items.length = 0 then some (none, some "No items in query", [])
  else
    let oids := q.items.map (fun item => item.oid)
    match c.getOid oids with
    | Except.error e => some (none, some ("SNMP Get: " ++ e), [Call.getCall oids])
    | Except.ok vars =>
      match buildResults q.items vars [] with
      | none => none
      | some m => some (some m, none, [Call.getCall oids])

/-- Client.singleRow from table.go (lines 110-133). -/
def singleRow (c : SnmpConn) (table : TableNode) (columns : List Column)
    (index : List String) :
    Option (Option ResMap × Option String × List Call) :=
  let columnIndex := joinDots index
  let q := columns.foldl
    (fun q column => Query.namedColumn q column.name column.node columnIndex [column.format])
    { items := [] }
  match getAll c q with
  | none => none
  | some (result, err, calls) =>
    match err with
    | some e => some (none, some e, calls)
    | none =>
      match result with
      | none => some (none, none, calls)
      | some m =>
        let row : Row :=
          { index := index.map (fun s => { formatted := s, raw := RawVal.ofStr s })
            values := m }
        some (some [(columnIndex, row)], none, calls)

/-- Table.Columns from table.go (lines 47-57): the caller's columns when any
were added, else every schema-declared column (with the zero Format). -/
def tableColumns (t : Table) : List Column :=
  if t.columns.length > 0 then t.columns
  else t.node.columns.map (fun c => { name := c.name, node := c, format := FormatNone })

/-- The per-index-column formatter map built by Client.Table (lines 82-90),
skipping the caller-fixed prefix columns and resolving each remaining column
with the all-representations format. -/
def buildIndexFormattersFrom (nodes : List IndexNode) (i indexLen : Nat)
    (acc : FmtMap) : FmtMap :=
  match nodes with
  | [] => acc
  | node :: rest =>
    if i < indexLen then buildIndexFormattersFrom rest (i + 1) indexLen acc
    else buildIndexFormattersFrom rest (i + 1) indexLen
      (mapInsert acc node.name (node.typ.getValueFormatter FormatAll))

/-- See buildIndexFormattersFrom. -/
def buildIndexFormatters (nodes : List IndexNode) (indexLen : Nat) : FmtMap :=
  buildIndexFormattersFrom nodes 0 indexLen []

/-- The walk root computed per column by Client.Table (lines 95-98). -/
def rootOidFor (column : Column) (index : List String) : String :=
  column.node.oidFormatted ++ (if index.length > 0 then "." ++ joinDots index else "")

/-- The per-column walk loop of Client.Table (lines 92-105): walk each
requested column's subtree in order, returning on the first error; the Go
named results map is returned in every non-panicking exit. -/
def walkColumns (c : SnmpConn) (table : TableNode) (index : List String)
    (ivf : FmtMap) (numColumns : Nat) :
    List Column → ResMap → List Call →
    Option (Option ResMap × Option String × List Call)
  | [], results, calls => some (some results, none, calls)
  | column :: rest, results, calls =>
    let rootOid := rootOidFor column index
    let calls2 := calls ++ [Call.walkCall rootOid]
    match c.walkLeaves rootOid with
    | Except.error e => some (some results, some e, calls2)
    | Except.ok leaves =>
      match runWalk (walkFunc table column index rootOid ivf numColumns) results leaves with
      | StepRes.panic => none
      | StepRes.err m e => some (some m, some e, calls2)
      | StepRes.ok m => walkColumns c table index ivf numColumns rest m calls2

/-- Client.Table from table.go (lines 64-108): validate the column count,
short-circuit to a single direct read when the caller fixed every index
column, otherwise build the per-index formatters (a negative remaining count
panics on the slice allocation, lines 82-83) and walk each requested column. -/
def clientTable (c : SnmpConn) (t : Table) (index : List String) :
    Option (Option ResMap × Option String × List Call) :=
  let columns := tableColumns t
  if columns.length = 0 then some (none, some "No columns given", [])
  else
    let tableIndex := t.node.rowIndex
    let indexLen := index.length
    if indexLen = tableIndex.length then singleRow c t.node columns index
    else
      let numIndices : Int := (tableIndex.length : Int) - (indexLen : Int)
      if numIndices < 0 then none
      else
        let ivf := buildIndexFormatters tableIndex indexLen
        walkColumns c t.node index ivf columns.length columns [] []

/-- The schema collaborator's models.ResolveFormat, as consumed by
Table.NamedColumn: explicit selectors are or-combined, an absent selector
list falls back to the all-representations format. -/
def ResolveFormat (formats : List Format) : Format :=
  if formats.length > 0 then formats.foldl (fun acc f => acc ||| f) FormatNone
  else FormatAll

/-- Table.NamedColumn from table.go (lines 42-45). -/
def Table.namedColumn (t : Table) (name : String) (node : ColumnNode)
    (formats : List Format) : Table :=
  { t with columns := t.columns ++ [{ name := name, node := node, format := ResolveFormat formats }] }

/-- Table.Column from table.go (lines 38-40). -/
def Table.addColumn (t : Table) (node : ColumnNode) (formats : List Format) : Table :=
  Table.namedColumn t node.name node formats

/- Helper lemmas about the association-list model of Go maps. -/

lemma mapLookup_mapInsert_self {α : Type} (m : List (String × α)) (k : String) (v : α) :
    mapLookup (mapInsert m k v) k = some v := by
  induction m with
  | nil => simp [mapInsert, mapLookup]
  | cons p rest ih =>
    obtain ⟨k2, v2⟩ := p
    by_cases h : k2 = k
    · simp [mapInsert, mapLookup, h]
    · simp [mapInsert, mapLookup, h, ih]

lemma mapLookup_mapInsert_ne {α : Type} (m : List (String × α)) (k k2 : String) (v : α)
    (h : k ≠ k2) : mapLookup (mapInsert m k v) k2 = mapLookup m k2 := by
  induction m with
  | nil => simp [mapInsert, mapLookup, h]
  | cons p rest ih =>
    obtain ⟨k3, v3⟩ := p
    by_cases h2 : k3 = k
    · subst h2; simp [mapInsert, mapLookup, h]
    · simp [mapInsert, mapLookup, h2, ih]

/- Helper lemmas about the index decode loop. -/

lemma getIndexLoop_skip (pre rest : List IndexNode) (j indexLen : Nat) (nI : Int)
    (parts : List SubId) (fmts : FmtMap) (h : j + pre.length ≤ indexLen) :
    getIndexLoop (pre ++ rest) j indexLen nI parts fmts
      = getIndexLoop rest (j + pre.length) indexLen nI parts fmts := by
  induction pre generalizing j with
  | nil => simp
  | cons p pre ih =>
    have hj : j < indexLen := by simp at h; omega
    have h2 : (j + 1) + pre.length ≤ indexLen := by simp at h; omega
    have hc : (p :: pre) ++ rest = p :: (pre ++ rest) := rfl
    rw [hc]
    simp only [getIndexLoop, if_pos hj]
    rw [ih (j + 1) h2]
    have hn : j + 1 + pre.length = j + (p :: pre).length := by simp; omega
    rw [hn]

lemma getIndex_length (tbl : TableNode) (indexLen : Nat) (numIndices : Int)
    (parts : List SubId) (fmts : FmtMap) (idx : List Value)
    (h : getIndex tbl indexLen numIndices parts fmts = some idx) :
    idx.length = numIndices.toNat := by
  unfold getIndex at h
  split at h
  · cases h
  · split at h
    · cases h
    · split at h
      · cases h
      · rename_i vals hloop hlen
        injection h with h2
        subst h2
        simp [List.length_append, List.length_replicate]
        omega

/- Shared concrete fixtures used by the counterexamples and witnesses below. -/

/-- A formatter that records the raw value it was given. -/
def idFmt : ValueFormatter := fun v => { formatted := "", raw := v }

/-- A plain integer-typed schema type. -/
def tInt : TypeInfo :=
  { baseType := BaseType.integer, ranges := [], getValueFormatter := fun _ => idFmt }

/-- An octet-string-typed schema type with no declared range. -/
def tStr : TypeInfo :=
  { baseType := BaseType.octetString, ranges := [], getValueFormatter := fun _ => idFmt }

/-- A bits-typed schema type. -/
def tBits : TypeInfo :=
  { baseType := BaseType.bits, ranges := [], getValueFormatter := fun _ => idFmt }

/-- A variable-length octet-string index column (not implied). -/
def sNode1 : IndexNode := { name := "s", typ := tStr, implied := false }

/-- An integer index column. -/
def nNode1 : IndexNode := { name := "n", typ := tInt, implied := false }

/-- Formatters for the two-column index fixture. -/
def fmts1 : FmtMap := [("s", idFmt), ("n", idFmt)]

/-- A table with index columns (OctetString, Integer), implied flag false. -/
def tbl1 : TableNode := { rowIndex := [sNode1, nNode1], columns := [] }

/-- Claim C1, counterexample: for the non-implied table tbl1 whose first
(non-last) index column is a variable-length OctetString, decoding the raw
suffix 3.72.101.121.5 does not treat the leading 3 as a length prefix: the
whole leading run 3.72.101.121 (length prefix included) becomes the column's
raw value, instead of the 72.101.121 the claim predicts. -/
theorem c1_counterexample :
    getIndex tbl1 0 2 [3, 72, 101, 121, 5] fmts1 =
      some [{ formatted := "", raw := RawVal.ofSubIds [3, 72, 101, 121] },
            { formatted := "", raw := RawVal.ofInt 5 }]
    ∧ RawVal.ofSubIds [3, 72, 101, 121] ≠ RawVal.ofSubIds [72, 101, 121] := by
  constructor
  · decide
  · decide

/-- Claim C1 (corrected): getIndex reads no length prefix for a
variable-length (OctetString-typed, without exactly one declared range) index
column.  At position j of the decode loop it consumes, directly as the
column's raw value, the first maxLen = remaining-count − numIndices + (j −
indexLen) + 1 sub-identifiers (one slot reserved per later index column), and
hands the rest to the following columns; the implied flag is never
consulted. -/
theorem c1_no_length_marker (node : IndexNode) (rest : List IndexNode)
    (j indexLen : Nat) (numIndices maxLen : Int) (parts : List SubId)
    (fmts : FmtMap) (f : ValueFormatter)
    (hj : indexLen ≤ j)
    (hbt : node.typ.baseType = BaseType.octetString)
    (hr : node.typ.ranges.length ≠ 1)
    (hf : mapLookup fmts node.name = some f)
    (hdef : maxLen = (parts.length : Int) - numIndices + (j : Int) - (indexLen : Int) + 1)
    (h0 : 0 ≤ maxLen) (h1 : maxLen ≤ (parts.length : Int)) :
    getIndexLoop (node :: rest) j indexLen numIndices parts fmts =
      (getIndexLoop rest (j + 1) indexLen numIndices (parts.drop maxLen.toNat) fmts).map
        (fun tl => f (RawVal.ofSubIds (parts.take maxLen.toNat)) :: tl) := by
  have hjlt : ¬ j < indexLen := by omega
  simp only [getIndexLoop, if_neg hjlt, hbt, if_pos rfl, dif_neg hr]
  rw [← hdef]
  simp only [goSliceTo, goSliceFrom, if_pos (And.intro h0 h1), hf]
  cases h2 : getIndexLoop rest (j + 1) indexLen numIndices (parts.drop maxLen.toNat) fmts <;>
    simp [h2]

/-- Witness for c1_no_length_marker at the concrete tbl1 decode. -/
theorem c1_no_length_marker_witness :
    getIndexLoop [sNode1, nNode1] 0 0 2 [3, 72, 101, 121, 5] fmts1 =
      (getIndexLoop [nNode1] 1 0 2 ([3, 72, 101, 121, 5].drop ((4 : Int).toNat)) fmts1).map
        (fun tl => idFmt (RawVal.ofSubIds ([3, 72, 101, 121, 5].take ((4 : Int).toNat))) :: tl) :=
  c1_no_length_marker sNode1 [nNode1] 0 0 2 4 [3, 72, 101, 121, 5] fmts1 idFmt
    (by decide) rfl (by decide) rfl (by decide) (by decide) (by decide)

/-- A bits-typed last index column marked implied. -/
def bNode2 : IndexNode := { name := "b", typ := tBits, implied := true }

/-- A table whose single (hence last) index column is bNode2, implied. -/
def tbl2 : TableNode := { rowIndex := [bNode2], columns := [] }

/-- Claim C2, counterexample: the last index column of tbl2 has the
variable-length base type Bits and is implied, yet decoding 1.2.3 assigns it
only the single sub-identifier 1 (the fixed-width scalar branch), not the
whole remainder 1.2.3 the claim requires. -/
theorem c2_counterexample :
    getIndex tbl2 0 1 [1, 2, 3] [("b", idFmt)] =
      some [{ formatted := "", raw := RawVal.ofInt 1 }]
    ∧ RawVal.ofInt 1 ≠ RawVal.ofSubIds [1, 2, 3] := by
  constructor
  · decide
  · decide

/-- Claim C2 (corrected): only an OctetString-typed last remaining index
column (when its type does not declare exactly one range) receives all
remaining sub-identifiers as its raw value with no length prefix consumed —
and it does so whatever the implied flag says, since getIndex never reads the
flag; a Bits- or ObjectIdentifier-typed last column instead consumes exactly
one sub-identifier, and an OctetString column with exactly one declared range
is truncated to that range's maximum. -/
theorem c2_last_column_takes_remainder (tbl : TableNode) (pre : List IndexNode)
    (node : IndexNode) (parts : List SubId) (fmts : FmtMap) (f : ValueFormatter)
    (hrow : tbl.rowIndex = pre ++ [node])
    (hbt : node.typ.baseType = BaseType.octetString)
    (hr : node.typ.ranges.length ≠ 1)
    (hf : mapLookup fmts node.name = some f) :
    getIndex tbl pre.length 1 parts fmts = some [f (RawVal.ofSubIds parts)] := by
  have h10 : ¬ (1 : Int) < 0 := by omega
  simp only [getIndex, if_neg h10, hrow]
  rw [getIndexLoop_skip pre [node] 0 pre.length 1 parts fmts (by omega)]
  have hjlt : ¬ 0 + pre.length < pre.length := by omega
  simp only [getIndexLoop, if_neg hjlt, hbt, if_pos rfl, dif_neg hr]
  have hml : (parts.length : Int) - 1 + ((0 + pre.length : Nat) : Int) - (pre.length : Int) + 1
      = (parts.length : Int) := by push_cast; ring
  rw [hml]
  have hb : (0 : Int) ≤ (parts.length : Int) ∧ (parts.length : Int) ≤ (parts.length : Int) := by omega
  simp only [goSliceTo, goSliceFrom, if_pos hb, hf]
  simp [Int.toNat_natCast]

/-- Witness for c2_last_column_takes_remainder: a two-column table with an
integer prefix column already fixed by the caller and an implied OctetString
last column consuming the whole remainder 7.8.9. -/
theorem c2_last_column_takes_remainder_witness :
    getIndex { rowIndex := [nNode1, { name := "sl", typ := tStr, implied := true }], columns := [] }
        1 1 [7, 8, 9] [("sl", idFmt)]
      = some [idFmt (RawVal.ofSubIds [7, 8, 9])] :=
  c2_last_column_takes_remainder
    { rowIndex := [nNode1, { name := "sl", typ := tStr, implied := true }], columns := [] }
    [nNode1] { name := "sl", typ := tStr, implied := true } [7, 8, 9] [("sl", idFmt)] idFmt
    rfl rfl (by decide) rfl

/-- Claim C3, counterexample: with tbl1's variable-length non-last first
index column, the input 5.7 — whose would-be declared length 5 exceeds the 1
sub-identifier that would remain after the prefix — is not a decode fault at
all: getIndex never reads a length prefix, consumes the 5 itself as the
column's one-byte raw value and completes the row's index decode normally;
and on the truly short input [] the decode does hit an out-of-bounds slice
bound (a Go panic, modelled as none) instead of faulting cleanly. -/
theorem c3_counterexample :
    getIndex tbl1 0 2 [5, 7] fmts1 =
      some [{ formatted := "", raw := RawVal.ofSubIds [5] },
            { formatted := "", raw := RawVal.ofInt 7 }]
    ∧ getIndex tbl1 0 2 [] fmts1 = none := by
  constructor
  · decide
  · decide

/-- Claim C3 (corrected): getIndex reads no length prefix, so an excessive
declared length can never be detected; the failure mode that does exist is an
out-of-bounds slice access — whenever fewer sub-identifiers remain than the
later index columns reserve (maxLen < 0), the decode loop evaluates the Go
slice expression indexParts[:maxLen] with a negative bound, a run-time panic
(modelled as none) rather than a clean per-row decode fault. -/
theorem c3_short_supply_out_of_bounds (node : IndexNode) (rest : List IndexNode)
    (j indexLen : Nat) (numIndices : Int) (parts : List SubId) (fmts : FmtMap)
    (hj : indexLen ≤ j)
    (hbt : node.typ.baseType = BaseType.octetString)
    (hr : node.typ.ranges.length ≠ 1)
    (hneg : (parts.length : Int) - numIndices + (j : Int) - (indexLen : Int) + 1 < 0) :
    getIndexLoop (node :: rest) j indexLen numIndices parts fmts = none := by
  have hjlt : ¬ j < indexLen := by omega
  simp only [getIndexLoop, if_neg hjlt, hbt, if_pos rfl, dif_neg hr]
  have hb : ¬ ((0 : Int) ≤ (parts.length : Int) - numIndices + (j : Int) - (indexLen : Int) + 1
      ∧ (parts.length : Int) - numIndices + (j : Int) - (indexLen : Int) + 1 ≤ (parts.length : Int)) := by
    omega
  simp only [goSliceTo, if_neg hb]
  simp

/-- Witness for c3_short_supply_out_of_bounds: decoding the empty remainder
against tbl1's two index columns panics on the negative slice bound. -/
theorem c3_short_supply_out_of_bounds_witness :
    getIndexLoop [sNode1, nNode1] 0 0 2 [] fmts1 = none :=
  c3_short_supply_out_of_bounds sNode1 [nNode1] 0 0 2 [] fmts1
    (by decide) rfl (by decide) (by decide)

/- Fixtures for the Client.Table level claims. -/

/-- An integer index column named n. -/
def nIdxInt : IndexNode := { name := "n", typ := tInt, implied := false }

/-- The schema-declared column of the C4 table. -/
def colAnode : ColumnNode := { name := "a", oidFormatted := "1.1", oidLen := 2, typ := tInt }

/-- A column node that is NOT part of the C4 table's declared schema. -/
def colBnode : ColumnNode := { name := "b", oidFormatted := "9.9", oidLen := 2, typ := tInt }

/-- A normal value leaf under the foreign column's subtree. -/
def pdu4 : SnmpPDU :=
  { typ := PduType.normal, name := ".9.9.7", oid := [9, 9, 7], value := RawVal.ofInt 5 }

/-- A transport session that answers the foreign column's walk with one leaf. -/
def conn4 : SnmpConn :=
  { walkLeaves := fun root => if root = "9.9" then Except.ok [pdu4] else Except.ok []
    getOid := fun _ => Except.error "stub" }

/-- A table whose schema declares only column a, but whose caller-requested
column list holds the foreign column b. -/
def tbl4 : Table :=
  { node := { rowIndex := [nIdxInt], columns := [colAnode] }
    columns := [{ name := "b", node := colBnode, format := 0 }] }

/-- Claim C4 (code bug): the requested column b does not belong to the
table's declared schema (which holds only a), yet Client.Table raises no
validation error and no error at all - it issues the subtree walk for the
foreign column (one walkCall, i.e. network activity) and returns its values.
The membership check announced by the spec exists in the source only as an
unimplemented TODO comment (table.go line 93). -/
theorem c4_membership_check_missing :
    (tbl4.node.columns.map (fun c => c.name)).contains "b" = false
    ∧ tbl4.columns.map (fun c => c.name) = ["b"]
    ∧ clientTable conn4 tbl4 [] =
        some (some [("7", { index := [{ formatted := "", raw := RawVal.ofInt 7 }],
                            values := [("b", { formatted := "", raw := RawVal.ofInt 5 })] })],
              none, [Call.walkCall "9.9"]) := by
  exact ⟨by decide, by decide, by decide⟩

/- Fixtures for C5: two requested columns, the second column's walk fails. -/

/-- First requested column of the C5 table (its walk succeeds). -/
def colA5 : Column := { name := "a", node := colAnode, format := 0 }

/-- Node of the second requested column of the C5 table. -/
def colB5node : ColumnNode := { name := "b", oidFormatted := "1.2", oidLen := 2, typ := tInt }

/-- Second requested column of the C5 table (its walk errors). -/
def colB5 : Column := { name := "b", node := colB5node, format := 0 }

/-- The one leaf returned for column a's walk. -/
def pdu5 : SnmpPDU :=
  { typ := PduType.normal, name := ".1.1.7", oid := [1, 1, 7], value := RawVal.ofInt 9 }

/-- A transport session where column a's walk succeeds and every other walk
fails with the transport error boom. -/
def conn5 : SnmpConn :=
  { walkLeaves := fun root => if root = "1.1" then Except.ok [pdu5] else Except.error "boom"
    getOid := fun _ => Except.error "stub" }

/-- The C5 table: one integer index column, requested columns a then b. -/
def tbl5 : Table := { node := { rowIndex := [nIdxInt], columns := [] }, columns := [colA5, colB5] }

/-- The row accumulated from column a's successful walk. -/
def row5 : Row :=
  { index := [{ formatted := "", raw := RawVal.ofInt 7 }]
    values := [("a", { formatted := "", raw := RawVal.ofInt 9 })] }

/-- Claim C5, counterexample: column b's walk fails after column a was
walked successfully, and Client.Table returns the error together with the
partial mapping already accumulated for column a - the named Go results map
is handed back populated, not discarded. -/
theorem c5_counterexample :
    clientTable conn5 tbl5 [] =
      some (some [("7", row5)], some "boom", [Call.walkCall "1.1", Call.walkCall "1.2"])
    ∧ (some [("7", row5)] : Option ResMap) ≠ none := by
  exact ⟨by decide, by decide⟩

/-- Claim C5 (corrected): when a per-column walk of Client.Table ends in an
error, the operation returns that error TOGETHER WITH the partial key-to-Row
mapping accumulated so far (Go named return values): whatever results map the
column loop reports alongside its error is exactly what Client.Table hands
back to the caller. -/
theorem c5_error_returns_partial_map (c : SnmpConn) (t : Table) (index : List String)
    (m : ResMap) (e : String) (cs : List Call)
    (hcols : ¬ (tableColumns t).length = 0)
    (hlen : ¬ index.length = t.node.rowIndex.length)
    (hle : index.length ≤ t.node.rowIndex.length)
    (h : walkColumns c t.node index (buildIndexFormatters t.node.rowIndex index.length)
          (tableColumns t).length (tableColumns t) [] [] = some (some m, some e, cs)) :
    clientTable c t index = some (some m, some e, cs) := by
  have hnn : ¬ ((t.node.rowIndex.length : Int) - (index.length : Int) < 0) := by omega
  simp only [clientTable, if_neg hcols, if_neg hlen, if_neg hnn]
  exact h

/-- Witness for c5_error_returns_partial_map at the concrete C5 scenario. -/
theorem c5_error_returns_partial_map_witness :
    clientTable conn5 tbl5 [] =
      some (some [("7", row5)], some "boom", [Call.walkCall "1.1", Call.walkCall "1.2"]) :=
  c5_error_returns_partial_map conn5 tbl5 [] [("7", row5)] "boom"
    [Call.walkCall "1.1", Call.walkCall "1.2"]
    (by decide) (by decide) (by decide) (by decide)

/-- Claim C7 (confirmed): every row freshly created by the walk callback has
an index slice of length exactly (total index columns) − (caller-supplied
prefix length): if one callback step turns a results map without key k into
one with key k bound to some row, that row's decoded index length is the
number of remaining index columns. -/
theorem c7_row_index_length (table : TableNode) (column : Column) (index : List String)
    (rootOid : String) (ivf : FmtMap) (nc : Nat) (m m2 : ResMap) (pdu : SnmpPDU)
    (k : String) (row : Row)
    (hstep : walkFunc table column index rootOid ivf nc m pdu = StepRes.ok m2)
    (hnew : mapLookup m k = none)
    (hrow : mapLookup m2 k = some row) :
    row.index.length = table.rowIndex.length - index.length := by
  simp only [walkFunc] at hstep
  split at hstep
  · cases hstep
  · injection hstep with h2
    subst h2
    rw [hnew] at hrow
    cases hrow
  · injection hstep with h2
    subst h2
    rw [hnew] at hrow
    cases hrow
  · split at hstep
    · cases hstep
    · rename_i key hkey
      split at hstep
      · cases hstep
      · rename_i results2 heq2
        split at heq2
        · rename_i r0 heq3
          injection heq2 with heq2
          subst heq2
          split at hstep
          · cases hstep
          · rename_i row0 heq4
            injection hstep with hstep
            subst hstep
            by_cases hk : key = k
            · subst hk
              rw [hnew] at heq3
              cases heq3
            · rw [mapLookup_mapInsert_ne _ _ _ _ hk] at hrow
              rw [hnew] at hrow
              cases hrow
        · rename_i heq3
          split at heq2
          · cases heq2
          · rename_i indexParts heq5
            split at heq2
            · cases heq2
            · rename_i rowIndex heq6
              injection heq2 with heq2
              subst heq2
              rw [mapLookup_mapInsert_self] at hstep
              injection hstep with hstep
              subst hstep
              by_cases hk : key = k
              · subst hk
                rw [mapLookup_mapInsert_self] at hrow
                injection hrow with hrow
                subst hrow
                have hlen := getIndex_length table index.length
                  ((table.rowIndex.length : Int) - (index.length : Int)) indexParts ivf
                  rowIndex heq6
                simp only []
                omega
              · rw [mapLookup_mapInsert_ne _ _ _ _ hk,
                    mapLookup_mapInsert_ne _ _ _ _ hk, hnew] at hrow
                cases hrow

/- Fixtures for the C7 witness: a two-index-column table with a one-element
caller prefix. -/

/-- Second integer index column. -/
def nIdx2 : IndexNode := { name := "m", typ := tInt, implied := false }

/-- The C7 table node: two integer index columns. -/
def tbl7 : TableNode := { rowIndex := [nIdxInt, nIdx2], columns := [] }

/-- The walked column of the C7 scenario. -/
def col7 : Column :=
  { name := "c", node := { name := "c", oidFormatted := "1.7", oidLen := 2, typ := tInt },
    format := 0 }

/-- The one leaf of the C7 scenario. -/
def pdu7 : SnmpPDU :=
  { typ := PduType.normal, name := ".1.7.4.9", oid := [1, 7, 4, 9], value := RawVal.ofInt 5 }

/-- Index formatters for tbl7 with prefix length 1. -/
def ivf7 : FmtMap := buildIndexFormatters tbl7.rowIndex 1

/-- Row created by the C7 callback step. -/
def row7 : Row :=
  { index := [{ formatted := "", raw := RawVal.ofInt 9 }]
    values := [("c", { formatted := "", raw := RawVal.ofInt 5 })] }

/-- Witness for c7_row_index_length: with two index columns and a supplied
prefix of length one, the created row's index slice has length 2 − 1 = 1. -/
theorem c7_row_index_length_witness :
    walkFunc tbl7 col7 ["4"] "1.7.4" ivf7 1 [] pdu7 = StepRes.ok [("9", row7)]
    ∧ mapLookup ([] : ResMap) "9" = none
    ∧ mapLookup [("9", row7)] "9" = some row7
    ∧ row7.index.length = tbl7.rowIndex.length - (["4"] : List String).length :=
  ⟨by decide, rfl, by decide,
    c7_row_index_length tbl7 col7 ["4"] "1.7.4" ivf7 1 [] [("9", row7)] pdu7 "9" row7
      (by decide) rfl (by decide)⟩

/-- Claim C8 (confirmed): a no-such-object leaf makes the walk callback
return an error whose message names the column, aborting the walk at that
leaf with the results map unchanged; a no-such-instance or end-of-view leaf
produces no error and no change to the results map, and the walk over the
remaining leaves continues exactly as if that leaf had not been there. -/
theorem c8_terminal_leaf_dispatch (table : TableNode) (column : Column)
    (index : List String) (rootOid : String) (ivf : FmtMap) (nc : Nat)
    (m : ResMap) (pdu : SnmpPDU) (rest : List SnmpPDU) :
    (pdu.typ = PduType.noSuchObject →
      walkFunc table column index rootOid ivf nc m pdu
          = StepRes.err m ("No such object for " ++ column.node.name)
      ∧ runWalk (walkFunc table column index rootOid ivf nc) m (pdu :: rest)
          = StepRes.err m ("No such object for " ++ column.node.name))
    ∧ ((pdu.typ = PduType.noSuchInstance ∨ pdu.typ = PduType.endOfMibView) →
      walkFunc table column index rootOid ivf nc m pdu = StepRes.ok m
      ∧ runWalk (walkFunc table column index rootOid ivf nc) m (pdu :: rest)
          = runWalk (walkFunc table column index rootOid ivf nc) m rest) := by
  constructor
  · intro h
    have hw : walkFunc table column index rootOid ivf nc m pdu
        = StepRes.err m ("No such object for " ++ column.node.name) := by
      simp only [walkFunc, h]
    refine ⟨hw, ?_⟩
    simp only [runWalk, hw]
  · intro h
    have hw : walkFunc table column index rootOid ivf nc m pdu = StepRes.ok m := by
      rcases h with h | h <;> simp only [walkFunc, h]
    refine ⟨hw, ?_⟩
    simp only [runWalk, hw]

/-- A no-such-object leaf. -/
def pduNSO : SnmpPDU :=
  { typ := PduType.noSuchObject, name := "", oid := [], value := RawVal.nilVal }

/-- A no-such-instance leaf. -/
def pduNSI : SnmpPDU :=
  { typ := PduType.noSuchInstance, name := "", oid := [], value := RawVal.nilVal }

/-- Witness for c8_terminal_leaf_dispatch: a no-such-object leaf for column
a errors with a message naming a; a no-such-instance leaf is silently
skipped and the walk continues over the remaining leaves. -/
theorem c8_terminal_leaf_dispatch_witness :
    (walkFunc tbl5.node colA5 [] "1.1" [] 1 [] pduNSO
        = StepRes.err [] ("No such object for " ++ colA5.node.name)
      ∧ runWalk (walkFunc tbl5.node colA5 [] "1.1" [] 1) [] (pduNSO :: [pdu5])
        = StepRes.err [] ("No such object for " ++ colA5.node.name))
    ∧ (walkFunc tbl5.node colA5 [] "1.1" [] 1 [] pduNSI = StepRes.ok []
      ∧ runWalk (walkFunc tbl5.node colA5 [] "1.1" [] 1) [] (pduNSI :: [pdu5])
        = runWalk (walkFunc tbl5.node colA5 [] "1.1" [] 1) [] [pdu5]) :=
  ⟨(c8_terminal_leaf_dispatch tbl5.node colA5 [] "1.1" [] 1 [] pduNSO [pdu5]).1 rfl,
   (c8_terminal_leaf_dispatch tbl5.node colA5 [] "1.1" [] 1 [] pduNSI [pdu5]).2 (Or.inl rfl)⟩

/-- Claim C9 (confirmed): a Table call that resolves to zero columns, and a
GetAll call with an empty query batch, both fail with their validation error
and an empty network-call trace - no transport request is issued. -/
theorem c9_empty_request_validation :
    (∀ (c : SnmpConn) (t : Table) (index : List String),
      tableColumns t = [] →
      clientTable c t index = some (none, some "No columns given", []))
    ∧ (∀ (c : SnmpConn) (q : Query),
      q.items = [] →
      getAll c q = some (none, some "No items in query", [])) := by
  constructor
  · intro c t index h
    simp [clientTable, h]
  · intro c q h
    simp [getAll, h]

/-- A transport session that fails every request (never reached by C9). -/
def connStub : SnmpConn :=
  { walkLeaves := fun _ => Except.error "stub", getOid := fun _ => Except.error "stub" }

/-- A table with no caller-added columns and no schema columns. -/
def tblEmpty : Table := { node := { rowIndex := [], columns := [] }, columns := [] }

/-- Witness for c9_empty_request_validation. -/
theorem c9_empty_request_validation_witness :
    clientTable connStub tblEmpty [] = some (none, some "No columns given", [])
    ∧ getAll connStub { items := [] } = some (none, some "No items in query", []) :=
  ⟨c9_empty_request_validation.1 connStub tblEmpty [] rfl,
   c9_empty_request_validation.2 connStub { items := [] } rfl⟩

/- Machinery for C6: the direct single-row read. -/

/-- The identifiers requested by the direct batch read of singleRow: one per
requested column, each the column root extended with the joined full index. -/
def singleReadOids (cols : List Column) (index : List String) : List String :=
  cols.map (fun column => column.node.oidFormatted ++ "." ++ joinDots index)

lemma singleRowQueryItems (ci : String) (cols : List Column) (init : Query) :
    (cols.foldl (fun q column =>
        Query.namedColumn q column.name column.node ci [column.format]) init).items
      = init.items ++ cols.map (fun column =>
          { format := column.node.typ.getValueFormatter (queryResolvedFormat [column.format])
            name := column.name
            oid := column.node.oidFormatted ++ "." ++ ci }) := by
  induction cols generalizing init with
  | nil => simp
  | cons c cs ih =>
    simp only [List.foldl_cons, List.map_cons]
    rw [ih]
    simp [Query.namedColumn, Query.add]

lemma buildResults_isSome (vars : List SnmpPDU) :
    ∀ (items : List QueryItem) (acc : List (String × Value)),
      vars.length ≤ items.length → ∃ m, buildResults items vars acc = some m := by
  induction vars with
  | nil =>
    intro items acc _
    cases items with
    | nil => exact ⟨acc, rfl⟩
    | cons it its => exact ⟨acc, rfl⟩
  | cons v vs ih =>
    intro items acc h
    cases items with
    | nil => simp at h
    | cons it its => exact ih its (mapInsert acc it.name (it.format v.value)) (by simp at h; omega)

lemma getAll_ok (c : SnmpConn) (q : Query) (vars : List SnmpPDU)
    (m : List (String × Value)) (oids : List String)
    (hne : ¬ q.items.length = 0)
    (hoids : q.items.map (fun item => item.oid) = oids)
    (hok : c.getOid oids = Except.ok vars)
    (hm : buildResults q.items vars [] = some m) :
    getAll c q = some (some m, none, [Call.getCall oids]) := by
  simp only [getAll, if_neg hne, hoids, hok, hm]

lemma getAll_err (c : SnmpConn) (q : Query) (e : String) (oids : List String)
    (hne : ¬ q.items.length = 0)
    (hoids : q.items.map (fun item => item.oid) = oids)
    (herr : c.getOid oids = Except.error e) :
    getAll c q = some (none, some ("SNMP Get: " ++ e), [Call.getCall oids]) := by
  simp only [getAll, if_neg hne, hoids, herr]

lemma singleRow_spec (c : SnmpConn) (tn : TableNode) (cols : List Column)
    (index : List String) (hcols : ¬ cols.length = 0) :
    (∀ vars, c.getOid (singleReadOids cols index) = Except.ok vars →
        vars.length = cols.length →
        ∃ row, singleRow c tn cols index =
          some (some [(joinDots index, row)], none, [Call.getCall (singleReadOids cols index)]))
    ∧ (∀ e, c.getOid (singleReadOids cols index) = Except.error e →
        singleRow c tn cols index =
          some (none, some ("SNMP Get: " ++ e), [Call.getCall (singleReadOids cols index)])) := by
  have h1 := singleRowQueryItems (joinDots index) cols { items := [] }
  have hne : ¬ (cols.foldl (fun q column =>
      Query.namedColumn q column.name column.node (joinDots index) [column.format])
      { items := [] }).items.length = 0 := by
    rw [h1]
    simp only [List.nil_append, List.length_map]
    exact hcols
  have hoids : (cols.foldl (fun q column =>
      Query.namedColumn q column.name column.node (joinDots index) [column.format])
      { items := [] }).items.map (fun item => item.oid) = singleReadOids cols index := by
    rw [h1]
    simp only [List.nil_append, List.map_map]
    rfl
  constructor
  · intro vars hok hvl
    obtain ⟨m, hm⟩ := buildResults_isSome vars
      (cols.foldl (fun q column =>
        Query.namedColumn q column.name column.node (joinDots index) [column.format])
        { items := [] }).items []
      (by rw [h1]; simp only [List.nil_append, List.length_map]; omega)
    refine ⟨{ index := index.map (fun s => { formatted := s, raw := RawVal.ofStr s })
              values := m }, ?_⟩
    simp only [singleRow]
    rw [getAll_ok c _ vars m (singleReadOids cols index) hne hoids hok hm]
  · intro e herr
    simp only [singleRow]
    rw [getAll_err c _ e (singleReadOids cols index) hne hoids herr]

/-- Claim C6 (confirmed): when the caller supplies exactly as many index
values as the table has index columns, Client.Table performs exactly one
batch read for all requested columns - the network trace is precisely one
getCall and contains no walkCall - and on success returns a one-entry
mapping keyed by the joined index (the row key); a failing batch read fails
the whole operation. -/
theorem c6_full_index_single_read (c : SnmpConn) (t : Table) (index : List String)
    (hcols : ¬ (tableColumns t).length = 0)
    (hlen : index.length = t.node.rowIndex.length) :
    (∀ vars, c.getOid (singleReadOids (tableColumns t) index) = Except.ok vars →
        vars.length = (tableColumns t).length →
        ∃ row, clientTable c t index =
          some (some [(joinDots index, row)], none,
            [Call.getCall (singleReadOids (tableColumns t) index)]))
    ∧ (∀ e, c.getOid (singleReadOids (tableColumns t) index) = Except.error e →
        clientTable c t index =
          some (none, some ("SNMP Get: " ++ e),
            [Call.getCall (singleReadOids (tableColumns t) index)])) := by
  have hct : clientTable c t index = singleRow c t.node (tableColumns t) index := by
    simp only [clientTable, if_neg hcols, if_pos hlen]
  rw [hct]
  exact singleRow_spec c t.node (tableColumns t) index hcols

/-- The response variable of the C6 witness scenario. -/
def pduV : SnmpPDU :=
  { typ := PduType.normal, name := ".1.1.3", oid := [1, 1, 3], value := RawVal.ofInt 42 }

/-- A transport session answering exactly the batch read of the C6 witness. -/
def conn6 : SnmpConn :=
  { walkLeaves := fun _ => Except.error "stub"
    getOid := fun oids => if oids = ["1.1.3"] then Except.ok [pduV] else Except.error "x" }

/-- The C6 witness table: one integer index column, one requested column. -/
def tbl6 : Table := { node := { rowIndex := [nIdxInt], columns := [] }, columns := [colA5] }

/-- Witness for c6_full_index_single_read: a fully specified index of length
one on a one-index-column table triggers the single direct read. -/
theorem c6_full_index_single_read_witness :
    ∃ row, clientTable conn6 tbl6 ["3"] =
      some (some [(joinDots ["3"], row)], none,
        [Call.getCall (singleReadOids (tableColumns tbl6) ["3"])]) :=
  (c6_full_index_single_read conn6 tbl6 ["3"] (by decide) rfl).1 [pduV] rfl rfl

/- Machinery for C10: or-union of every format selector. -/

lemma foldl_lor_acc (bs : List Format) (a f : Format) :
    bs.foldl (fun x y => x ||| y) (a ||| f) ||| f = bs.foldl (fun x y => x ||| y) (a ||| f) := by
  induction bs generalizing a with
  | nil =>
    simp only [List.foldl_nil]
    rw [Nat.or_assoc, Nat.or_self]
  | cons b bs ih =>
    simp only [List.foldl_cons]
    have h : (a ||| f) ||| b = (a ||| b) ||| f := by
      rw [Nat.or_assoc, Nat.or_comm f b, ← Nat.or_assoc]
    rw [h]
    exact ih (a ||| b)

lemma foldl_lor_absorb (fs : List Format) :
    ∀ (a f : Format), f ∈ fs →
      fs.foldl (fun x y => x ||| y) a ||| f = fs.foldl (fun x y => x ||| y) a := by
  induction fs with
  | nil =>
    intro a f h
    cases h
  | cons b bs ih =>
    intro a f h
    rcases List.mem_cons.mp h with h1 | h2
    · subst h1
      exact foldl_lor_acc bs a f
    · exact ih (a ||| b) f h2

/-- Claim C10 (confirmed): each of Query.Column, Query.NamedColumn,
Query.Scalar and Query.NamedScalar appends one item whose formatter is
resolved with queryResolvedFormat of the passed selectors; that resolution is
the all-representations format when no selector is passed and the bitwise or
of every passed selector (starting from the empty set) otherwise, so every
individual selector is absorbed by the resolved union - not just the first
or the last. -/
theorem c10_format_selector_union (q : Query) (name : String) (node : ColumnNode)
    (snode : ScalarNode) (index : String) (formats : List Format) :
    (Query.column q node index formats).items
        = q.items ++ [{ format := node.typ.getValueFormatter (queryResolvedFormat formats),
                        name := node.name, oid := node.oidFormatted ++ "." ++ index }]
    ∧ (Query.namedColumn q name node index formats).items
        = q.items ++ [{ format := node.typ.getValueFormatter (queryResolvedFormat formats),
                        name := name, oid := node.oidFormatted ++ "." ++ index }]
    ∧ (Query.scalar q snode formats).items
        = q.items ++ [{ format := snode.typ.getValueFormatter (queryResolvedFormat formats),
                        name := snode.name, oid := snode.oidFormatted }]
    ∧ (Query.namedScalar q name snode formats).items
        = q.items ++ [{ format := snode.typ.getValueFormatter (queryResolvedFormat formats),
                        name := name, oid := snode.oidFormatted }]
    ∧ queryResolvedFormat [] = FormatAll
    ∧ (∀ f fs, queryResolvedFormat (f :: fs)
        = (f :: fs).foldl (fun acc g => acc ||| g) FormatNone)
    ∧ (∀ f, f ∈ formats → queryResolvedFormat formats ||| f = queryResolvedFormat formats) := by
  refine ⟨rfl, rfl, rfl, rfl, rfl, fun f fs => by simp [queryResolvedFormat], fun f hf => ?_⟩
  cases formats with
  | nil => cases hf
  | cons b bs =>
    simp only [queryResolvedFormat, List.length_cons]
    rw [if_pos (Nat.succ_pos bs.length)]
    exact foldl_lor_absorb (b :: bs) FormatNone f hf

/-- A scalar node fixture for the C10 witness. -/
def snode0 : ScalarNode := { name := "u", oidFormatted := "1.3", typ := tInt }

/-- Witness for c10_format_selector_union: with selectors [1, 2], selector 1
is contained in the resolved union. -/
theorem c10_format_selector_union_witness :
    queryResolvedFormat [1, 2] ||| 1 = queryResolvedFormat [1, 2] :=
  (c10_format_selector_union { items := [] } "x" colAnode snode0 "1" [1, 2]).2.2.2.2.2.2
    1 (by decide)
